import Mathlib

/-!
Verification of `gaussian_discriminant_analysis.py`.

The estimator (`DiscriminantAnalysis.fit` / `_fit_likehood`) is embedded over
exact rationals: numpy arrays are modelled by `NpArr` (0-, 1-, 2- or
3-dimensional rational arrays), dictionaries by association lists, and the
mutable `self` object by the record `DAState`.  Python exceptions are modelled
by returning the partially mutated state together with an `Except` value.

The density evaluator (`log_multivar_t_pdf` / `mvar_t_pdf`) is embedded over
the reals, with `scipy.linalg.cholesky(·, lower=True)` modelled by the exact
lower-triangular decomposition algorithm (`cholesky`, failing exactly when a
pivot is non-positive, with the same single retry after adding
`min_sigma * eye(p)`), `scipy.linalg.solve_triangular` by exact forward
substitution, and `scipy.special.gammaln` by `log |Gamma|`.
-/

/-- A numpy array of rationals of dimension 0, 1, 2 or 3. -/
inductive NpArr where
  | scalar (x : ℚ)
  | vec (v : List ℚ)
  | mat (m : List (List ℚ))
  | arr3 (t : List (List (List ℚ)))
deriving DecidableEq, Repr

/-- Model of `np.shape` of an `NpArr` (assuming well-formed, non-ragged data). -/
def npShape : NpArr → List ℕ
  | NpArr.scalar _ => []
  | NpArr.vec v => [v.length]
  | NpArr.mat m => [m.length, (m.headD []).length]
  | NpArr.arr3 t => [t.length, (t.headD []).length, ((t.headD []).headD []).length]

/-- The underlying list of a 1-dimensional array (junk default otherwise). -/
def toVec : NpArr → List ℚ
  | NpArr.vec v => v
  | _ => []

/-- The underlying row list of a 2-dimensional array (junk default otherwise). -/
def toMat : NpArr → List (List ℚ)
  | NpArr.mat m => m
  | _ => []

/-- Model of `np.mean(m, axis=0)`: the per-column arithmetic mean of a 2-d array. -/
def meanAxis0 (m : List (List ℚ)) : List ℚ :=
  (List.range ((m.headD []).length)).map
    (fun j => ((m.map (fun r => r.getD j 0)).sum) / (m.length : ℚ))

/-- Model of `np.cov(m, bias=True, rowvar=True)` followed by numpy's final `squeeze`:
each *row* of `m` is a variable and the columns are the observations, the
normalization divides by the number of observations (`bias=True`), and a
1×1 result is squeezed to a 0-dimensional scalar. -/
def covRowvar (m : List (List ℚ)) : NpArr :=
  let N : ℚ := ((m.headD []).length : ℚ)
  let dev := m.map (fun r => let a := r.sum / N; r.map (fun x => x - a))
  let C := dev.map (fun ri => dev.map (fun rj => ((List.zipWith (· * ·) ri rj).sum) / N))
  match C with
  | [[x]] => NpArr.scalar x
  | _ => NpArr.mat C

/-- Model of `np.diag`: a 1-d array gives the square diagonal matrix, a 2-d array gives
its diagonal as a 1-d array, anything else raises `ValueError`. -/
def npDiag : NpArr → Except String NpArr
  | NpArr.vec v =>
      Except.ok (NpArr.mat ((List.range v.length).map
        (fun i => (List.range v.length).map (fun j => if i = j then v.getD i 0 else 0))))
  | NpArr.mat m =>
      Except.ok (NpArr.vec ((List.range (min m.length ((m.headD []).length))).map
        (fun i => (m.getD i []).getD i 0)))
  | _ => Except.error "Input must be 1- or 2-d."

/-- Model of `np.diag(np.diag(a))`, as used to zero the off-diagonal entries. -/
def npDiag2 (a : NpArr) : Except String NpArr :=
  match npDiag a with
  | Except.ok v => npDiag v
  | Except.error e => Except.error e

/-- Insert a rational into an ascending-sorted list. -/
def insertSorted (x : ℚ) : List ℚ → List ℚ
  | [] => [x]
  | y :: ys => if x ≤ y then x :: y :: ys else y :: insertSorted x ys

/-- Ascending insertion sort, modelling the sorted output of `np.unique`. -/
def sortQ (l : List ℚ) : List ℚ := l.foldr insertSorted []

/-- Lookup in an association list (a Python dict keyed by label). -/
def alookup {α : Type} (c : ℚ) : List (ℚ × α) → Option α
  | [] => none
  | (k, v) :: rest => if k = c then some v else alookup c rest

/-- The per-class partition `np.vstack(X[i, :] for i in range(n) if y[i] == c)`:
the rows of `Xr` whose label is `c`, in their original order. -/
def selectRows (Xr : List (List ℚ)) (yl : List ℚ) (c : ℚ) : List (List ℚ) :=
  (List.zip yl Xr).filterMap (fun pr => if pr.1 = c then some pr.2 else none)

/-- Left-to-right effectful map, modelling a Python dict comprehension in
which evaluating an entry may raise. -/
def mapE {α : Type} (f : ℚ → Except String α) : List ℚ → Except String (List α)
  | [] => Except.ok []
  | a :: l =>
    match f a with
    | Except.error e => Except.error e
    | Except.ok b =>
      match mapE f l with
      | Except.error e => Except.error e
      | Except.ok bs => Except.ok (b :: bs)

/-- The mutable attributes of a `DiscriminantAnalysis` object.  `fitted`
models `self._fitted` (`none` for Python `False`, `some "MLE"` once fit);
the `Option` fields are unset before `fit`. -/
structure DAState where
  fitted : Option String
  fit_method : String
  diag_cov : Bool
  n_samples : Option ℕ
  n_features : Option ℕ
  classes : Option (List ℚ)
  n_classes : Option (List (ℚ × ℕ))
  n_categories : Option ℕ
  class_prob : Option (List (ℚ × ℚ))
  class_mu : Option (List (ℚ × List ℚ))
  class_Sigma : Option (List (ℚ × NpArr))
deriving DecidableEq, Repr

/-- Model of `DiscriminantAnalysis.__init__(fit_method, diag_cov)`. -/
def initDA (fit_method : String) (diag_cov : Bool) : DAState :=
  { fitted := none
    fit_method := fit_method
    diag_cov := diag_cov
    n_samples := none
    n_features := none
    classes := none
    n_classes := none
    n_categories := none
    class_prob := none
    class_mu := none
    class_Sigma := none }

/-- Model of `DiscriminantAnalysis._fit_likehood(self, X, y=None)` where `Xp` is the
label → rows lookup table.  Reads `self.classes`, `self.n_classes`,
`self.n_samples`, `self.diag_cov`; returns the mutated state, or the state
mutated so far together with the raised error. -/
def fit_likehood (s : DAState) (Xp : List (ℚ × List (List ℚ))) :
    DAState × Except String Unit :=
  let classes := s.classes.getD []
  let class_prob := classes.map
    (fun c => (c, (((alookup c (s.n_classes.getD [])).getD 0 : ℕ) : ℚ) / ((s.n_samples.getD 0 : ℕ) : ℚ)))
  let class_mu := classes.map (fun c => (c, meanAxis0 ((alookup c Xp).getD [])))
  let class_SigmaL := classes.map (fun c => (c, covRowvar ((alookup c Xp).getD [])))
  let s1 := { s with class_prob := some class_prob, class_mu := some class_mu,
                     class_Sigma := some class_SigmaL }
  if s1.diag_cov then
    match mapE (fun c =>
        match npDiag2 ((alookup c class_SigmaL).getD (NpArr.scalar 0)) with
        | Except.ok a => Except.ok (c, a)
        | Except.error e => Except.error e) classes with
    | Except.ok l =>
        ({ s1 with class_Sigma := some l, fitted := some "MLE" }, Except.ok ())
    | Except.error e => (s1, Except.error e)
  else
    ({ s1 with fitted := some "MLE" }, Except.ok ())

/-- Propagation of the result of `self._fit_likehood(X, y)` through `fit`:
an exception propagates, otherwise `fit` falls through to `return 0`. -/
def propagate (r : Except String Unit) : Except String ℕ :=
  match r with
  | Except.ok _ => Except.ok 0
  | Except.error e => Except.error e

/-- Model of `DiscriminantAnalysis.fit(self, X, y, method, ...)`.  Returns the mutated
state paired with either the returned status value `0` or the raised error. -/
def fitModel (s : DAState) (X y : NpArr) (method : Option String) :
    DAState × Except String ℕ :=
  match npShape X with
  | [n_samples, n_features] =>
    let s1 := { s with n_samples := some n_samples, n_features := some n_features }
    if (npShape y).length ≠ 1 then
      (s1, Except.error "y must have a single dimension!")
    else if (npShape X).length ≠ 2 then
      (s1, Except.error "X must have a double dimensions!")
    else
      let yl := toVec y
      if yl.length ≠ n_samples then
        (s1, Except.error ("X, y length mismatch " ++ toString n_samples ++ " !=" ++ toString yl.length))
      else
        let classes := sortQ yl.dedup
        let n_classes := classes.map (fun c => (c, yl.count c))
        let s2 := { s1 with classes := some classes, n_classes := some n_classes,
                            n_categories := some classes.length }
        let Xp := classes.map (fun c => (c, selectRows (toMat X) yl c))
        let meth := method.getD s2.fit_method
        if meth = "MLE" then
          let res := fit_likehood s2 Xp
          (res.1, propagate res.2)
        else
          (s2, Except.ok 0)
  | shp =>
    (s, Except.error (if shp.length < 2 then
        "not enough values to unpack (expected 2, got " ++ toString shp.length ++ ")"
      else
        "too many values to unpack (expected 2)"))

/-- Returns `true` exactly when the call raised. -/
def isErr {ε α : Type} : Except ε α → Bool
  | Except.error _ => true
  | Except.ok _ => false

/-- The FittedModel fields of the estimator (the spec's fitted state,
including the fitted-state flag). -/
def fittedFields (s : DAState) :
    Option (List ℚ) × Option (List (ℚ × ℕ)) × Option ℕ × Option (List (ℚ × ℚ))
      × Option (List (ℚ × List ℚ)) × Option (List (ℚ × NpArr)) × Option String :=
  (s.classes, s.n_classes, s.n_categories, s.class_prob, s.class_mu, s.class_Sigma, s.fitted)

/-- Reference definition following the spec's words: the population
(biased, divide-by-count) covariance of a set of sample rows, over the
features — an `n_features × n_features` matrix. -/
def specPopulationCov (rows : List (List ℚ)) : List (List ℚ) :=
  let cnt : ℚ := (rows.length : ℚ)
  let p := (rows.headD []).length
  let colMean := fun j => ((rows.map (fun r => r.getD j 0)).sum) / cnt
  (List.range p).map (fun i => (List.range p).map
    (fun j => ((rows.map (fun r => (r.getD i 0 - colMean i) * (r.getD j 0 - colMean j))).sum) / cnt))

/-- Substring test on strings, used to examine raised error messages. -/
def strContains (hay needle : String) : Bool :=
  (List.range (hay.toList.length + 1)).any
    (fun i => needle.toList.isPrefixOf (hay.toList.drop i))

/-! ## The density evaluator, over the reals -/

/-- Model of `scipy.special.gammaln`: the logarithm of the absolute value of the
Gamma function. -/
noncomputable def gammaln (x : ℝ) : ℝ := Real.log |Real.Gamma x|

/-- Scale every entry of a matrix on the right (`Sigma * nu` in numpy). -/
def matScale (m : List (List ℝ)) (c : ℝ) : List (List ℝ) :=
  m.map (fun r => r.map (fun x => x * c))

/-- Scale every entry of a matrix on the left (`min_sigma * np.eye(p)`). -/
def smulMat (c : ℝ) (m : List (List ℝ)) : List (List ℝ) :=
  m.map (fun r => r.map (fun x => c * x))

/-- Entrywise matrix sum. -/
def matAdd (A B : List (List ℝ)) : List (List ℝ) :=
  List.zipWith (List.zipWith (fun x y => x + y)) A B

/-- Model of `np.eye(p)`. -/
def eyeL (p : ℕ) : List (List ℝ) :=
  (List.range p).map (fun i => (List.range p).map (fun j => if i = j then (1 : ℝ) else 0))

/-- Model of `np.diag` of a 2-d real array. -/
def diagL (m : List (List ℝ)) : List ℝ :=
  (List.range m.length).map (fun i => (m.getD i []).getD i 0)

/-- One step of the exact lower-triangular (Cholesky, `lower=True`)
decomposition, recursing on the trailing Schur complement; fails exactly
when a pivot is not strictly positive, which is when LAPACK `potrf`
(and hence `scipy.linalg.cholesky`) reports a `LinAlgError`.  The fuel
argument equals the number of rows throughout. -/
noncomputable def cholAux : ℕ → List (List ℝ) → Option (List (List ℝ))
  | 0, _ => some []
  | fuel + 1, rows =>
    match rows with
    | [] => some []
    | row :: rest =>
      let a := row.headD 0
      if a ≤ 0 then none
      else
        let d := Real.sqrt a
        let c := rest.map (fun r => r.headD 0 / d)
        let S := List.zipWith
          (fun r ci => List.zipWith (fun x cj => x - ci * cj) r.tail c) rest c
        match cholAux fuel S with
        | none => none
        | some L => some ((d :: List.replicate rest.length 0) ::
            List.zipWith (fun ci Lrow => ci :: Lrow) c L)

/-- Model of `scipy.linalg.cholesky(m, lower=True)`: `none` models the raised
`LinAlgError`. -/
noncomputable def cholesky (m : List (List ℝ)) : Option (List (List ℝ)) :=
  cholAux m.length m

/-- Model of `scipy.linalg.solve_triangular(L, y, lower=True)` by exact forward
substitution (block form: eliminate the first unknown, recurse on the
trailing system). -/
noncomputable def fwdAux : ℕ → List (List ℝ) → List ℝ → List ℝ
  | 0, _, _ => []
  | fuel + 1, Ls, ys =>
    match Ls with
    | [] => []
    | Lrow :: Lrest =>
      let z0 := ys.headD 0 / Lrow.headD 0
      z0 :: fwdAux fuel (Lrest.map List.tail)
        (List.zipWith (fun yi li => yi - li * z0) ys.tail (Lrest.map (fun r => r.headD 0)))

/-- Solve `L z = y` for lower-triangular `L`. -/
noncomputable def solve_triangular (L : List (List ℝ)) (y : List ℝ) : List ℝ :=
  fwdAux L.length L y

/-- Model of `log_multivar_t_pdf(X, mu, Sigma, nu, min_sigma)`: the log-density
evaluator exactly as the source computes it.  `X` is the list of the `n`
points (each of dimension `p`), and the result is the length-`n` list of
values `- norm - inner - covar_log_det`, or the raised `ValueError` when
both decomposition attempts fail. -/
noncomputable def log_multivar_t_pdf (X : List (List ℝ)) (mu : List ℝ)
    (Sigma : List (List ℝ)) (nu : ℝ) (min_sigma : ℝ := 1 / 10000000) :
    Except String (List ℝ) :=
  let p := (X.headD []).length
  match (match cholesky (matScale Sigma nu) with
         | some L => some L
         | none => cholesky (matAdd (matScale Sigma nu) (smulMat min_sigma (eyeL p)))) with
  | none => Except.error "\"covariances\" must be symmetric"
  | some covar_chol =>
    let covar_log_det := 2 * ((diagL covar_chol).map Real.log).sum
    let covar_solve := X.map
      (fun x => solve_triangular covar_chol (List.zipWith (fun a b => a - b) x mu))
    let norm := gammaln ((nu + p) / 2) - gammaln (nu / 2)
      - 0.5 * p * Real.log (nu * Real.pi)
    Except.ok (covar_solve.map (fun z =>
      - norm - (-(nu + p) * 0.5 * Real.log (1 + (z.map (fun t => t ^ 2)).sum))
        - covar_log_det))

/-- Model of `mvar_t_pdf(X, mu, Sigma, nu)`: `np.exp` of the log-density, with the
default `min_sigma`. -/
noncomputable def mvar_t_pdf (X : List (List ℝ)) (mu : List ℝ)
    (Sigma : List (List ℝ)) (nu : ℝ) : Except String (List ℝ) :=
  (log_multivar_t_pdf X mu Sigma nu (1 / 10000000)).map (fun v => v.map Real.exp)

/-- Reference definition following the spec's words: the mathematical
log-density of the multivariate Student-t distribution with mean `mu`,
symmetric positive-definite scale matrix `Sigma` and `nu` degrees of
freedom, evaluated at each row of `X`. -/
noncomputable def studentT_log_density {n p : ℕ} (X : Matrix (Fin n) (Fin p) ℝ)
    (mu : Fin p → ℝ) (Sigma : Matrix (Fin p) (Fin p) ℝ) (nu : ℝ) : Fin n → ℝ :=
  fun i =>
    let d : Fin p → ℝ := fun j => X i j - mu j
    Real.log (Real.Gamma ((nu + p) / 2) /
      (Real.Gamma (nu / 2) * (nu * Real.pi) ^ ((p : ℝ) / 2) * Real.sqrt Sigma.det *
        (1 + Matrix.dotProduct d (Sigma⁻¹.mulVec d) / nu) ^ ((nu + (p : ℝ)) / 2)))

/-! ## Helper lemmas -/

lemma mem_insertSorted (a x : ℚ) (l : List ℚ) :
    a ∈ insertSorted x l ↔ a = x ∨ a ∈ l := by
  induction l with
  | nil => simp [insertSorted]
  | cons y ys ih =>
    simp only [insertSorted]
    split
    · simp [List.mem_cons]
    · simp only [List.mem_cons, ih]
      tauto

lemma mem_sortQ (a : ℚ) (l : List ℚ) : a ∈ sortQ l ↔ a ∈ l := by
  induction l with
  | nil => simp [sortQ]
  | cons x xs ih =>
    show a ∈ insertSorted x (sortQ xs) ↔ _
    rw [mem_insertSorted, ih]
    simp [List.mem_cons]

lemma selectRows_length (yl : List ℚ) (Xr : List (List ℚ)) (c : ℚ)
    (h : yl.length = Xr.length) : (selectRows Xr yl c).length = yl.count c := by
  induction yl generalizing Xr with
  | nil => simp [selectRows]
  | cons a ys ih =>
    cases Xr with
    | nil => simp at h
    | cons r rs =>
      have h' : ys.length = rs.length := by simpa using h
      by_cases hac : a = c
      · simp [selectRows, List.zip_cons_cons, List.filterMap_cons, hac, List.count_cons,
          ← ih rs h', selectRows]
      · simp [selectRows, List.zip_cons_cons, List.filterMap_cons, hac, List.count_cons,
          ← ih rs h', selectRows, Ne.symm hac]

lemma alookup_map {α : Type} (c : ℚ) (l : List ℚ) (g : ℚ → α) (h : c ∈ l) :
    alookup c (l.map (fun k => (k, g k))) = some (g c) := by
  induction l with
  | nil => cases h
  | cons k ks ih =>
    simp only [List.map_cons, alookup]
    by_cases hkc : k = c
    · rw [if_pos hkc, hkc]
    · rw [if_neg hkc]
      rcases List.mem_cons.mp h with h' | h'
      · exact absurd h'.symm hkc
      · exact ih h'

lemma mapE_ok_forall {α : Type} (f : ℚ → Except String α) (l : List ℚ) (res : List α)
    (h : mapE f l = Except.ok res) : ∀ c ∈ l, ∃ b, f c = Except.ok b := by
  induction l generalizing res with
  | nil => intro c hc; cases hc
  | cons a as ih =>
    intro c hc
    simp only [mapE] at h
    cases hfa : f a with
    | error e => rw [hfa] at h; simp at h
    | ok b =>
      rw [hfa] at h
      cases hrest : mapE f as with
      | error e => rw [hrest] at h; simp at h
      | ok bs =>
        rcases List.mem_cons.mp hc with rfl | hc'
        · exact ⟨b, hfa⟩
        · exact ih bs hrest c hc'

lemma covRowvar_singleton (r : List ℚ) : ∃ x, covRowvar [r] = NpArr.scalar x :=
  ⟨_, rfl⟩

lemma isErr_propagate (r : Except String Unit) : isErr (propagate r) = isErr r := by
  cases r <;> rfl

lemma fit_likehood_err (s : DAState) (Xp : List (ℚ × List (List ℚ)))
    (hd : s.diag_cov = true)
    (hc : ∃ c ∈ s.classes.getD [], ∃ x, covRowvar ((alookup c Xp).getD []) = NpArr.scalar x) :
    isErr (fit_likehood s Xp).2 = true := by
  obtain ⟨c, hcl, x, hx⟩ := hc
  simp only [fit_likehood]
  rw [if_pos hd]
  cases hm : mapE (fun c =>
      match npDiag2 ((alookup c ((s.classes.getD []).map
          (fun c => (c, covRowvar ((alookup c Xp).getD []))))).getD (NpArr.scalar 0)) with
      | Except.ok a => Except.ok (c, a)
      | Except.error e => Except.error e) (s.classes.getD []) with
  | error e => rfl
  | ok l =>
    exfalso
    obtain ⟨b, hb⟩ := mapE_ok_forall _ _ _ hm c hcl
    rw [alookup_map c _ _ hcl] at hb
    simp only [Option.getD_some, hx] at hb
    simp [npDiag2, npDiag] at hb

lemma zip_sub_add : ∀ (x mu t : List ℝ), x.length = t.length → mu.length = t.length →
    List.zipWith (fun a b => a - b) (List.zipWith (fun a b => a + b) x t)
      (List.zipWith (fun a b => a + b) mu t) = List.zipWith (fun a b => a - b) x mu := by
  intro x mu t
  induction t generalizing x mu with
  | nil =>
    intro hx hmu
    rw [List.length_eq_zero.mp hx, List.length_eq_zero.mp hmu]
    rfl
  | cons c ts ih =>
    intro hx hmu
    cases x with
    | nil => simp at hx
    | cons a xs =>
      cases mu with
      | nil => simp at hmu
      | cons b ms =>
        simp only [List.zipWith_cons_cons]
        rw [ih xs ms (by simpa using hx) (by simpa using hmu)]
        congr 1
        ring

lemma chol_mat_one : cholesky (matScale [[(1:ℝ)]] 1) = some [[1]] := by
  rw [show cholesky (matScale [[(1:ℝ)]] 1)
      = (if (1:ℝ) * 1 ≤ 0 then none else some [[Real.sqrt (1 * 1)]]) from rfl,
    if_neg (by norm_num)]
  norm_num [Real.sqrt_one]

lemma chol_neg_one : cholesky (matScale [[(-1:ℝ)]] 1) = none := by
  rw [show cholesky (matScale [[(-1:ℝ)]] 1)
      = (if (-1:ℝ) * 1 ≤ 0 then none else some [[Real.sqrt ((-1) * 1)]]) from rfl,
    if_pos (by norm_num)]

lemma chol_neg_one_retry :
    cholesky (matAdd (matScale [[(-1:ℝ)]] 1) (smulMat (1 / 10000000) (eyeL 1))) = none := by
  rw [show cholesky (matAdd (matScale [[(-1:ℝ)]] 1) (smulMat (1 / 10000000) (eyeL 1)))
      = (if (-1:ℝ) * 1 + (1 / 10000000) * 1 ≤ 0 then none
         else some [[Real.sqrt ((-1) * 1 + (1 / 10000000) * 1)]]) from rfl,
    if_pos (by norm_num)]

lemma lmtp_base :
    log_multivar_t_pdf [[(0:ℝ)]] [0] [[1]] 1 (1 / 10000000) = Except.ok [Real.log Real.pi] := by
  unfold log_multivar_t_pdf
  rw [chol_mat_one]
  show Except.ok _ = _
  have hsolve : solve_triangular [[(1:ℝ)]] (List.zipWith (fun a b => a - b) [(0:ℝ)] [0])
      = [((0:ℝ) - 0) / 1] := rfl
  have hdiag : diagL [[(1:ℝ)]] = [1] := rfl
  simp only [List.map_cons, List.map_nil, hsolve, hdiag, List.headD_cons, List.length_cons,
    List.length_nil, Real.log_one, List.sum_cons, List.sum_nil]
  norm_num [gammaln, Real.Gamma_one, Real.Gamma_one_half_eq,
    abs_of_nonneg (Real.sqrt_nonneg Real.pi), Real.log_sqrt Real.pi_pos.le]
  ring

lemma studentT_log_density_base :
    studentT_log_density !![(0:ℝ)] ![0] !![1] 1 = fun _ => - Real.log Real.pi := by
  funext i
  simp only [studentT_log_density]
  have hd : (fun j : Fin 1 => !![(0:ℝ)] i j - ![(0:ℝ)] j) = 0 := by
    funext j
    fin_cases i
    fin_cases j
    simp
  rw [hd]
  rw [Matrix.zero_dotProduct]
  norm_num [Real.Gamma_one, Real.Gamma_one_half_eq, Matrix.det_fin_one,
    Real.one_rpow, ← Real.sqrt_eq_rpow, Real.mul_self_sqrt Real.pi_pos.le,
    Real.log_inv]

/-! ## Claims -/

/-- Claim C1: the value returned by `log_multivar_t_pdf` is claimed to be the
log of the multivariate Student-t density.  At `X = [[0]]`, `mu = [0]`,
`Sigma = [[1]]`, `nu = 1` the code returns `log π`, while the Student-t
(here: standard Cauchy) log-density at `0` is `-log π`, and the two differ:
the final line of the source negates `norm` and `inner` and subtracts the
full log-determinant of `nu * Sigma` instead of half the log-determinant of
`Sigma`. -/
theorem C1_log_density_not_student_t :
    log_multivar_t_pdf [[(0:ℝ)]] [0] [[1]] 1 (1 / 10000000) = Except.ok [Real.log Real.pi]
      ∧ studentT_log_density !![(0:ℝ)] ![0] !![1] 1 = (fun _ => - Real.log Real.pi)
      ∧ Real.log Real.pi ≠ - Real.log Real.pi := by
  refine ⟨lmtp_base, studentT_log_density_base, ?_⟩
  have hpos : 0 < Real.log Real.pi :=
    Real.log_pos (by linarith [Real.pi_gt_three])
  intro h
  linarith

/-- Claim C2: `class_covariance[c]` is claimed to be the
`n_features × n_features` population covariance of the class rows.  For
`X = [[1,2],[3,5],[5,9]]`, `y = [0,0,0]` (3 samples, 2 features) the code
stores the `3 × 3` matrix `np.cov(rows, rowvar=True, bias=True)` — the
covariance *between samples*, normalized by `n_features` — which differs
from the claimed `2 × 2` population covariance of the rows. -/
theorem C2_class_covariance_rowvar_bug :
    (fitModel (initDA "MLE" false)
        (NpArr.mat [[1,2],[3,5],[5,9]]) (NpArr.vec [0,0,0]) none).2 = Except.ok 0
      ∧ ((fitModel (initDA "MLE" false)
          (NpArr.mat [[1,2],[3,5],[5,9]]) (NpArr.vec [0,0,0]) none).1).class_Sigma
        = some [(0, NpArr.mat [[1/4,1/2,1],[1/2,1,2],[1,2,4]])]
      ∧ specPopulationCov [[1,2],[3,5],[5,9]] = [[8/3,14/3],[14/3,74/9]]
      ∧ NpArr.mat [[1/4,1/2,1],[1/2,1,2],[1,2,4]]
        ≠ NpArr.mat [[8/3,14/3],[14/3,74/9]] := by
  refine ⟨by with_unfolding_all rfl, by with_unfolding_all decide,
    by with_unfolding_all decide, by with_unfolding_all decide⟩

/-- Claim C3: whenever the shapes of `X` and `y` violate the `fit`
preconditions (`y` not exactly 1-dimensional, `X` not exactly 2-dimensional,
or `len(y)` different from the number of rows of `X`), `fit` raises, and
none of the FittedModel fields (including the fitted-state flag) is
mutated by the failed call. -/
theorem C3_invalid_shape_raises_without_fitted_mutation
    (s : DAState) (X y : NpArr) (method : Option String)
    (h : ¬ ((npShape y).length = 1 ∧ (npShape X).length = 2
            ∧ (npShape y).headD 0 = (npShape X).headD 0)) :
    isErr (fitModel s X y method).2 = true
      ∧ fittedFields (fitModel s X y method).1 = fittedFields s := by
  cases X with
  | scalar x => exact ⟨rfl, rfl⟩
  | vec v => exact ⟨rfl, rfl⟩
  | arr3 t => exact ⟨rfl, rfl⟩
  | mat m =>
    cases y with
    | scalar x => exact ⟨rfl, rfl⟩
    | arr3 t => exact ⟨rfl, rfl⟩
    | mat m' => exact ⟨rfl, rfl⟩
    | vec v =>
      have hv : v.length ≠ m.length := by
        simpa [npShape] using h
      simp only [fitModel, npShape, toVec, toMat]
      rw [if_neg (by simp), if_neg (by simp), if_pos hv]
      exact ⟨rfl, rfl⟩

/-- Witness for C3 at a concrete length-mismatched input. -/
theorem C3_shape_error_witness :
    isErr (fitModel (initDA "MLE" false) (NpArr.mat [[1]]) (NpArr.vec [1, 2]) none).2 = true
      ∧ fittedFields (fitModel (initDA "MLE" false)
          (NpArr.mat [[1]]) (NpArr.vec [1, 2]) none).1 = fittedFields (initDA "MLE" false) :=
  C3_invalid_shape_raises_without_fitted_mutation (initDA "MLE" false)
    (NpArr.mat [[1]]) (NpArr.vec [1, 2]) none (by decide)

/-- Claim C4: whenever `log_multivar_t_pdf` succeeds, `mvar_t_pdf` is its
elementwise exponential (both with the default `min_sigma`). -/
theorem C4_density_is_exp_of_log_density (X : List (List ℝ)) (mu : List ℝ)
    (Sigma : List (List ℝ)) (nu : ℝ) (v : List ℝ)
    (h : log_multivar_t_pdf X mu Sigma nu (1 / 10000000) = Except.ok v) :
    mvar_t_pdf X mu Sigma nu = Except.ok (v.map Real.exp) := by
  unfold mvar_t_pdf
  rw [h]
  rfl

/-- Witness for C4 at a concrete succeeding input. -/
theorem C4_density_exp_witness :
    mvar_t_pdf [[(0:ℝ)]] [0] [[1]] 1 = Except.ok [Real.exp (Real.log Real.pi)] :=
  C4_density_is_exp_of_log_density [[(0:ℝ)]] [0] [[1]] 1 [Real.log Real.pi] lmtp_base

/-- Claim C5: `log_multivar_t_pdf` is invariant under simultaneous
translation of every row of `X` and of `mu` by the same vector `t`. -/
theorem C5_translation_invariance (X : List (List ℝ)) (mu t : List ℝ)
    (Sigma : List (List ℝ)) (nu ms : ℝ)
    (hmu : mu.length = t.length) (hX : ∀ x ∈ X, x.length = t.length) :
    log_multivar_t_pdf (X.map (fun x => List.zipWith (fun a b => a + b) x t))
      (List.zipWith (fun a b => a + b) mu t) Sigma nu ms
      = log_multivar_t_pdf X mu Sigma nu ms := by
  have hp : ((X.map (fun x => List.zipWith (fun a b => a + b) x t)).headD []).length
      = (X.headD []).length := by
    cases X with
    | nil => rfl
    | cons x xs =>
      simp only [List.map_cons, List.headD_cons, List.length_zipWith]
      rw [hX x (List.mem_cons_self _ _), min_self]
  simp only [log_multivar_t_pdf]
  rw [hp]
  cases h : (match cholesky (matScale Sigma nu) with
             | some L => some L
             | none => cholesky (matAdd (matScale Sigma nu)
                 (smulMat ms (eyeL (X.headD []).length)))) with
  | none => rfl
  | some L =>
    simp only []
    congr 1
    congr 1
    rw [List.map_map]
    apply List.map_congr_left
    intro x hx
    simp only [Function.comp_apply]
    congr 1
    exact zip_sub_add x mu t (hX x hx) hmu

/-- Witness for C5 at a concrete input. -/
theorem C5_translation_witness :
    log_multivar_t_pdf ([[(0:ℝ)]].map (fun x => List.zipWith (fun a b => a + b) x [5]))
        (List.zipWith (fun a b => a + b) [0] [5]) [[1]] 1 (1 / 10000000)
      = log_multivar_t_pdf [[(0:ℝ)]] [0] [[1]] 1 (1 / 10000000) :=
  C5_translation_invariance [[(0:ℝ)]] [0] [5] [[1]] 1 (1 / 10000000) rfl
    (fun x hx => by rw [List.mem_singleton.mp hx]; rfl)

/-- Claim C6 (amended): `log_multivar_t_pdf` raises the `ValueError` whose
message is the literal string `"covariances" must be symmetric` exactly when
the lower-triangular decomposition fails both on `Sigma * nu` and on
`Sigma * nu + min_sigma * eye(p)`; whenever either attempt succeeds the call
returns normally. -/
theorem C6_error_iff_both_cholesky_attempts_fail (X : List (List ℝ)) (mu : List ℝ)
    (Sigma : List (List ℝ)) (nu ms : ℝ) :
    log_multivar_t_pdf X mu Sigma nu ms = Except.error "\"covariances\" must be symmetric"
      ↔ (cholesky (matScale Sigma nu) = none ∧
         cholesky (matAdd (matScale Sigma nu) (smulMat ms (eyeL (X.headD []).length))) = none) := by
  simp only [log_multivar_t_pdf]
  cases h1 : cholesky (matScale Sigma nu) with
  | some L => simp
  | none =>
    cases h2 : cholesky (matAdd (matScale Sigma nu) (smulMat ms (eyeL (X.headD []).length))) with
    | some L => simp
    | none => simp

/-- Counterexample for C6 as stated: at `Sigma = [[-1]]`, `nu = 1` both
decomposition attempts fail and the raised message is the literal
`"covariances" must be symmetric`, which does not mention
positive-definiteness. -/
theorem C6_error_message_counterexample :
    log_multivar_t_pdf [[(0:ℝ)]] [0] [[-1]] 1 (1 / 10000000)
        = Except.error "\"covariances\" must be symmetric"
      ∧ strContains "\"covariances\" must be symmetric" "positive-definite" = false := by
  constructor
  · simp only [log_multivar_t_pdf, List.headD_cons, List.length_cons, List.length_nil,
      Nat.zero_add]
    rw [chol_neg_one, chol_neg_one_retry]
  · decide

/-- Claim C7: on shape-valid input, a `fit` call whose effective method is
`MAP`, `Mean` or `Bayes` raises no error, returns the status value `0`, and
leaves `class_prob`, `class_mu`, `class_Sigma` and the fitted flag
untouched (the silent no-op). -/
theorem C7_non_mle_methods_silent_noop
    (s : DAState) (Xm : List (List ℚ)) (yv : List ℚ) (method : Option String)
    (hlen : yv.length = Xm.length)
    (hm : method.getD s.fit_method = "MAP" ∨ method.getD s.fit_method = "Mean"
      ∨ method.getD s.fit_method = "Bayes") :
    (fitModel s (NpArr.mat Xm) (NpArr.vec yv) method).2 = Except.ok 0
      ∧ (fitModel s (NpArr.mat Xm) (NpArr.vec yv) method).1.class_prob = s.class_prob
      ∧ (fitModel s (NpArr.mat Xm) (NpArr.vec yv) method).1.class_mu = s.class_mu
      ∧ (fitModel s (NpArr.mat Xm) (NpArr.vec yv) method).1.class_Sigma = s.class_Sigma
      ∧ (fitModel s (NpArr.mat Xm) (NpArr.vec yv) method).1.fitted = s.fitted := by
  have hne : method.getD s.fit_method ≠ "MLE" := by
    rcases hm with h | h | h <;> simp [h]
  simp only [fitModel, npShape, toVec, toMat]
  rw [if_neg (by simp), if_neg (by simp), if_neg (by simp [hlen]), if_neg hne]
  exact ⟨rfl, rfl, rfl, rfl, rfl⟩

/-- Witness for C7 at a concrete input with `method="MAP"`. -/
theorem C7_noop_witness :
    (fitModel (initDA "MLE" false) (NpArr.mat [[1]]) (NpArr.vec [0]) (some "MAP")).2
        = Except.ok 0
      ∧ (fitModel (initDA "MLE" false) (NpArr.mat [[1]]) (NpArr.vec [0])
          (some "MAP")).1.class_prob = (initDA "MLE" false).class_prob
      ∧ (fitModel (initDA "MLE" false) (NpArr.mat [[1]]) (NpArr.vec [0])
          (some "MAP")).1.class_mu = (initDA "MLE" false).class_mu
      ∧ (fitModel (initDA "MLE" false) (NpArr.mat [[1]]) (NpArr.vec [0])
          (some "MAP")).1.class_Sigma = (initDA "MLE" false).class_Sigma
      ∧ (fitModel (initDA "MLE" false) (NpArr.mat [[1]]) (NpArr.vec [0])
          (some "MAP")).1.fitted = (initDA "MLE" false).fitted :=
  C7_non_mle_methods_silent_noop (initDA "MLE" false) [[1]] [0] (some "MAP")
    rfl (Or.inl rfl)

/-- Claim C8: for `X = [[0,0],[0,0],[10,10],[10,10]]`, `y = [0,0,1,1]` the
MLE fit succeeds with priors `1/2`, class means `[0,0]` and `[10,10]`, and
both class covariances equal to the all-zero `2 × 2` matrix. -/
theorem C8_concrete_two_class_fit :
    (fitModel (initDA "MLE" false)
        (NpArr.mat [[0,0],[0,0],[10,10],[10,10]]) (NpArr.vec [0,0,1,1]) none).2
      = Except.ok 0
      ∧ ((fitModel (initDA "MLE" false)
          (NpArr.mat [[0,0],[0,0],[10,10],[10,10]]) (NpArr.vec [0,0,1,1]) none).1).class_prob
        = some [(0, 1/2), (1, 1/2)]
      ∧ ((fitModel (initDA "MLE" false)
          (NpArr.mat [[0,0],[0,0],[10,10],[10,10]]) (NpArr.vec [0,0,1,1]) none).1).class_mu
        = some [(0, [0,0]), (1, [10,10])]
      ∧ ((fitModel (initDA "MLE" false)
          (NpArr.mat [[0,0],[0,0],[10,10],[10,10]]) (NpArr.vec [0,0,1,1]) none).1).class_Sigma
        = some [(0, NpArr.mat [[0,0],[0,0]]), (1, NpArr.mat [[0,0],[0,0]])] := by
  refine ⟨by with_unfolding_all rfl, ?_⟩
  with_unfolding_all decide

/-- Claim C9: for `X = [[0,10],[3,5],[7,9]]`, `y = [0,1,1]` (class `0` has a
single member row) the MLE fit raises no error, but `class_Sigma[0]` is the
0-dimensional scalar `25` — the biased variance across the single row's
features — not the claimed all-zero `n_features × n_features` matrix. -/
theorem C9_singleton_class_covariance_is_scalar_not_zero_matrix :
    (fitModel (initDA "MLE" false)
        (NpArr.mat [[0,10],[3,5],[7,9]]) (NpArr.vec [0,1,1]) none).2 = Except.ok 0
      ∧ ((fitModel (initDA "MLE" false)
          (NpArr.mat [[0,10],[3,5],[7,9]]) (NpArr.vec [0,1,1]) none).1).class_Sigma
        = some [(0, NpArr.scalar 25), (1, NpArr.mat [[1,1],[1,1]])]
      ∧ NpArr.scalar 25 ≠ NpArr.mat [[0,0],[0,0]] := by
  refine ⟨by with_unfolding_all rfl, by with_unfolding_all decide, by decide⟩

/-- Claim C10: an MLE fit with `diag_cov` enabled raises whenever some class
has exactly one member row: the covariance of a single-row class is
0-dimensional after numpy's squeeze, and `np.diag` of a 0-dimensional array
raises. -/
theorem C10_diag_cov_singleton_class_raises
    (s : DAState) (Xm : List (List ℚ)) (yv : List ℚ) (method : Option String)
    (hd : s.diag_cov = true) (hlen : yv.length = Xm.length)
    (hm : method.getD s.fit_method = "MLE")
    (hc : ∃ c, c ∈ yv ∧ yv.count c = 1) :
    isErr (fitModel s (NpArr.mat Xm) (NpArr.vec yv) method).2 = true := by
  obtain ⟨c, hcy, hc1⟩ := hc
  simp only [fitModel, npShape, toVec, toMat]
  rw [if_neg (by simp), if_neg (by simp), if_neg (by simp [hlen]), if_pos hm]
  show isErr (propagate (fit_likehood _ _).2) = true
  rw [isErr_propagate]
  apply fit_likehood_err
  · exact hd
  have hcc : c ∈ sortQ yv.dedup := by
    rw [mem_sortQ, List.mem_dedup]; exact hcy
  refine ⟨c, hcc, ?_⟩
  show ∃ x, covRowvar ((alookup c ((sortQ yv.dedup).map
      (fun k => (k, selectRows Xm yv k)))).getD []) = NpArr.scalar x
  rw [alookup_map c _ _ hcc]
  simp only [Option.getD_some]
  have hone : (selectRows Xm yv c).length = 1 := by
    rw [selectRows_length yv Xm c hlen, hc1]
  obtain ⟨r, hr⟩ := List.length_eq_one.mp hone
  rw [hr]
  exact covRowvar_singleton r

/-- Witness for C10 at a concrete input whose class `0` has one member. -/
theorem C10_diag_cov_witness :
    isErr (fitModel (initDA "MLE" true)
      (NpArr.mat [[1,2],[3,4],[5,6]]) (NpArr.vec [0,1,1]) none).2 = true :=
  C10_diag_cov_singleton_class_raises (initDA "MLE" true) [[1,2],[3,4],[5,6]] [0,1,1] none
    rfl rfl rfl ⟨0, by with_unfolding_all decide, by with_unfolding_all decide⟩
